import Mathlib

/-!
# Verification of reposync's reconciliation and execution core

Shallow embedding of `src/main.rs` and `src/git.rs` of sejoharp/reposync.
Strings are modelled as lists of Unicode scalar values (`List Nat`); raw
subprocess stdout/stderr are modelled as byte lists (`List Nat`, each < 256).
-/

namespace Reposync

/-- Codepoints of a Lean string literal, used to transcribe the Rust string
literals appearing in the source. -/
def str2c (s : String) : List Nat := s.data.map Char.toNat

/-- Worker for `removeOcc`, structurally recursive on a fuel argument so that
it reduces in the kernel.  One unit of fuel is spent per examined position;
`removeOcc` supplies `s.length`, which is enough because every step consumes at
least one list element. -/
def removeOccF (p : List Nat) : Nat → List Nat → List Nat
  | 0, s => s
  | _ + 1, [] => []
  | fuel + 1, c :: rest =>
    if p ≠ [] ∧ p.isPrefixOf (c :: rest) then removeOccF p fuel ((c :: rest).drop p.length)
    else c :: removeOccF p fuel rest

/-- Rust `str::replace(pat, "")`: remove every non-overlapping occurrence of
`pat`, scanning left to right.  With an empty pattern, Rust's `replace` with an
empty replacement returns the string unchanged, which the guard `p ≠ []`
reproduces.  This embeds `remote_repo.name.replace(github_team_prefix, "")`
from `git.rs:29` and `git.rs:75`. -/
def removeOcc (p s : List Nat) : List Nat :=
  removeOccF p s.length s

/-- Struct `RemoteRepo` from `git.rs:17-22`. -/
structure RemoteRepo where
  name : List Nat
  archived : Bool
  ssh_url : List Nat
deriving DecidableEq

/-- Struct `LocalRepo` from `git.rs:11-15`. -/
structure LocalRepo where
  name : List Nat
  path : List Nat
deriving DecidableEq

/-- Function `is_known_repo` from `git.rs:69-80` (identical copy in `main.rs:131-142`):
the loop returns true iff some local repo's name equals the remote name with
every occurrence of the team prefix removed. -/
def is_known_repo (r : RemoteRepo) (locals : List LocalRepo) (tp : List Nat) : Bool :=
  locals.any (fun l => l.name == removeOcc tp r.name)

/-- Function `find_new_repos` from `git.rs:45-55` (identical copy in `main.rs:283-293`). -/
def find_new_repos (remotes : List RemoteRepo) (locals : List LocalRepo) (tp : List Nat) :
    List RemoteRepo :=
  remotes.filter (fun r => !is_known_repo r locals tp)

/-- Function `find_archived_local_repos` from `git.rs:57-67`. -/
def find_archived_local_repos (remoteArchived : List RemoteRepo) (locals : List LocalRepo)
    (tp : List Nat) : List RemoteRepo :=
  remoteArchived.filter (fun r => is_known_repo r locals tp)

/-- Function `list_active_github_team_repos` from `git.rs:184-189`. -/
def list_active_github_team_repos (rs : List RemoteRepo) : List RemoteRepo :=
  rs.filter (fun r => !r.archived)

/-- Function `list_archived_github_team_repos` from `git.rs:191-196`. -/
def list_archived_github_team_repos (rs : List RemoteRepo) : List RemoteRepo :=
  rs.filter (fun r => r.archived)

/-- The clone destination directory name computed in `git_clone`
(`git.rs:29`): the remote name with the team prefix `replace`d away. -/
def clone_dir_name (r : RemoteRepo) (tp : List Nat) : List Nat :=
  removeOcc tp r.name

/-! ## Remote-inventory pagination (`git.rs:119-183`)

The HTTP layer is abstracted as an oracle `pages : Nat → FetchResult` giving,
for each page number, either a transport/decode failure (`err`, covering both
the `send()` error and the `json()` error arms of `get_repos`) or the decoded
repository list of that page. -/

/-- Result of fetching and decoding one page of the remote inventory. -/
inductive FetchResult
  | err
  | ok (repos : List RemoteRepo)

/-- Function `get_repos` from `git.rs:119-160`: on a transport or decode error return
`none`; otherwise keep only the repositories whose name starts with the team
prefix, and return `none` when that filtered list is empty (signalling "no
more pages" to the caller), `some filtered` otherwise. -/
def get_repos (pages : Nat → FetchResult) (tp : List Nat) (page : Nat) :
    Option (List RemoteRepo) :=
  match pages page with
  | .err => none
  | .ok rs =>
    let filtered := rs.filter (fun r => tp.isPrefixOf r.name)
    if filtered.isEmpty then none else some filtered

/-- The `while let Some(page_repos) = get_repos(..)` loop of `get_all_repos`
(`git.rs:162-183`), starting at page `p`, with explicit fuel bounding the
number of iterations (the Rust loop is unbounded; all theorems assume enough
fuel to reach the terminating page). -/
def getAllFrom (pages : Nat → FetchResult) (tp : List Nat) : Nat → Nat → List RemoteRepo
  | 0, _ => []
  | fuel + 1, p =>
    match get_repos pages tp p with
    | none => []
    | some rs => rs ++ getAllFrom pages tp fuel (p + 1)

/-- Function `get_all_repos` from `git.rs:162-183`: accumulate pages starting at page 1,
incrementing by one, until `get_repos` yields `None`. -/
def get_all_repos (pages : Nat → FetchResult) (tp : List Nat) (fuel : Nat) : List RemoteRepo :=
  getAllFrom pages tp fuel 1

/-- The raw decoded repository list of one page (empty on error); used to state
properties about what a page contained before any filtering. -/
def pageRepos (pages : Nat → FetchResult) (n : Nat) : List RemoteRepo :=
  match pages n with
  | .err => []
  | .ok rs => rs

/-- The page filter as the spec describes it: both the archived filter and the
name-prefix filter.  Written from the spec's words ("after applying
archived/prefix filters"), for comparison with the code's stopping rule, which
applies only the prefix filter (`git.rs:144-149`). -/
def specPageFilter (tp : List Nat) (rs : List RemoteRepo) : List RemoteRepo :=
  rs.filter (fun r => !r.archived && tp.isPrefixOf r.name)

/-! ## Outcome classification (`main.rs:185-252`)

`handle_pull` and `handle_clone` map one finished subprocess invocation to a
`Result<GitMessage, GitMessage>`.  We model the payload of both arms, keeping
the repo name and message; `Option` on the outside models a panic (`unwrap`
on `str::from_utf8`): `none` = the task panics, `some r` = it returns `r`. -/

/-- Captured output of a finished subprocess (`std::process::Output`): exit
status plus raw stdout/stderr bytes. -/
structure ProcOutput where
  exitCode : Int
  stdoutB : List Nat
  stderrB : List Nat
deriving DecidableEq

/-- Struct `GitMessage` (`main.rs:103-106`) tagged with which `Result` arm carried it:
`ok` for the `Ok` arm, `err` for the `Err` arm. -/
inductive GitResult
  | ok (name message : List Nat)
  | err (name message : List Nat)
deriving DecidableEq

/-- The spec's five outcome kinds. -/
inductive OutcomeKind
  | cloned
  | updated
  | pullNoOp
  | cloneError
  | pullError
deriving DecidableEq

/-- How a pull task's `GitResult` lands in the spec's outcome buckets: the
`Err` arm is a pull error; the `Ok` arm with the empty message is the no-op
case (`main.rs:218-221`) and with any other message the updated case
(`main.rs:213-216`). -/
def pullKind : GitResult → OutcomeKind
  | .err _ _ => .pullError
  | .ok _ [] => .pullNoOp
  | .ok _ (_ :: _) => .updated

/-- How a clone task's `GitResult` lands in the spec's outcome buckets. -/
def cloneKind : GitResult → OutcomeKind
  | .err _ _ => .cloneError
  | .ok _ _ => .cloned

/-- Predicate `u8::is_ascii_whitespace`: space, tab, newline, form feed, carriage
return. -/
def isWsB (b : Nat) : Bool :=
  b == 9 || b == 10 || b == 12 || b == 13 || b == 32

/-- Rust `[u8]::trim_ascii`: remove leading and trailing ASCII whitespace bytes. -/
def trimAscii (s : List Nat) : List Nat :=
  ((s.dropWhile isWsB).reverse.dropWhile isWsB).reverse

/-- Lower bound for the first continuation byte of a three-byte sequence. -/
def cont3lo (b : Nat) : Nat := if b = 224 then 160 else 128

/-- Upper bound for the first continuation byte of a three-byte sequence. -/
def cont3hi (b : Nat) : Nat := if b = 237 then 159 else 191

/-- Lower bound for the first continuation byte of a four-byte sequence. -/
def cont4lo (b : Nat) : Nat := if b = 240 then 144 else 128

/-- Upper bound for the first continuation byte of a four-byte sequence. -/
def cont4hi (b : Nat) : Nat := if b = 244 then 143 else 191

/-- Decode one UTF-8 scalar value from the front of a byte list, following the
validation rules of Rust's `str::from_utf8` (RFC 3629: shortest forms only, no
surrogates, maximum U+10FFFF).  Returns the scalar and the remaining bytes, or
`none` on an empty or ill-formed sequence. -/
def utf8Step : List Nat → Option (Nat × List Nat)
  | [] => none
  | b :: rest =>
    if b < 128 then some (b, rest)
    else if 194 ≤ b ∧ b ≤ 223 then
      match rest with
      | b1 :: r =>
        if 128 ≤ b1 ∧ b1 ≤ 191 then some ((b - 192) * 64 + (b1 - 128), r) else none
      | [] => none
    else if 224 ≤ b ∧ b ≤ 239 then
      match rest with
      | b1 :: b2 :: r =>
        if (cont3lo b ≤ b1 ∧ b1 ≤ cont3hi b) ∧ (128 ≤ b2 ∧ b2 ≤ 191) then
          some ((b - 224) * 4096 + (b1 - 128) * 64 + (b2 - 128), r)
        else none
      | _ => none
    else if 240 ≤ b ∧ b ≤ 244 then
      match rest with
      | b1 :: b2 :: b3 :: r =>
        if (cont4lo b ≤ b1 ∧ b1 ≤ cont4hi b) ∧ (128 ≤ b2 ∧ b2 ≤ 191) ∧ (128 ≤ b3 ∧ b3 ≤ 191)
        then
          some ((b - 240) * 262144 + (b1 - 128) * 4096 + (b2 - 128) * 64 + (b3 - 128), r)
        else none
      | _ => none
    else none

/-- Worker for `utf8Decode`: iterate `utf8Step`, structurally recursive on a
fuel argument.  `utf8Decode` supplies the byte count, which suffices because
every step consumes at least one byte. -/
def utf8DecodeF : Nat → List Nat → Option (List Nat)
  | _, [] => some []
  | 0, _ :: _ => none
  | fuel + 1, b :: rest =>
    match utf8Step (b :: rest) with
    | none => none
    | some (c, r) => (utf8DecodeF fuel r).map (fun l => c :: l)

/-- UTF-8 decoding as validated by Rust's `str::from_utf8`: `some` codepoints
on valid input, `none` exactly when `from_utf8` returns `Err` — in which case
the source's `.unwrap()` panics. -/
def utf8Decode (s : List Nat) : Option (List Nat) :=
  utf8DecodeF s.length s

/-- The `Err` message of the exec-error arm of `handle_pull` (`main.rs:194-198`):
`format!("Pulling failed with message:{}", message)`. -/
def pullFailedMsg (m : List Nat) : List Nat :=
  str2c "Pulling failed with message:" ++ m

/-- The classification performed by the closure in `handle_pull`
(`main.rs:192-226`), as a function of the exec-level error (the `Err` arm of
`git_pull`, carrying the rendered `io::Error`) and the raw stdout/stderr
bytes.  `none` models the panic of `str::from_utf8(..).unwrap()` on invalid
UTF-8.  Order of operations mirrors the source: stderr is trimmed, decoded
and compared against the empty string first; stdout is trimmed, decoded and
compared against the literal `"Already up to date."` only when stderr was
empty. -/
def classify_pull (n : List Nat) (execErr : Option (List Nat)) (stdoutB stderrB : List Nat) :
    Option GitResult :=
  match execErr with
  | some m => some (.err n (pullFailedMsg m))
  | none =>
    match utf8Decode (trimAscii stderrB) with
    | none => none
    | some errS =>
      if errS ≠ [] then some (.err n errS)
      else
        match utf8Decode (trimAscii stdoutB) with
        | none => none
        | some outS =>
          if outS ≠ str2c "Already up to date." then some (.ok n (str2c "updated"))
          else some (.ok n [])

/-- The classification performed by the closure in `handle_clone`
(`main.rs:239-250`).  The source discards the result of `git_clone` entirely
(`let _ = git_clone(..)`), so the subprocess result — exec error, exit code,
stdout and stderr alike — is ignored and the task always returns
`Ok(GitMessage { message: "cloned" })`. -/
def classify_clone (n : List Nat) (_res : Except (List Nat) ProcOutput) : GitResult :=
  .ok n (str2c "cloned")

/-! ## Spec-side comparison definitions -/

/-- Written from the spec's words for claim C6: the remote name with the team
prefix removed *from its start* (and only there). -/
def stripLeading (tp name : List Nat) : List Nat :=
  if tp.isPrefixOf name then name.drop tp.length else name

/-- Written from the spec's words for claim C6: a remote repo is known locally
iff some local repo's name equals the remote name with the prefix removed from
its start.  To be compared with the code's `is_known_repo`, which removes
every occurrence of the prefix. -/
def is_known_repo_strip (r : RemoteRepo) (locals : List LocalRepo) (tp : List Nat) : Bool :=
  locals.any (fun l => l.name == stripLeading tp r.name)

/-- Concrete page oracle for claim C4: page 1 holds only an archived
prefix-matching repository, page 2 an active one, every later page errors. -/
def cexPages4 : Nat → FetchResult
  | 1 => .ok [⟨str2c "team_a", true, str2c "a"⟩]
  | 2 => .ok [⟨str2c "team_b", false, str2c "b"⟩]
  | _ => .err

/-- Concrete page oracle for claim C9: page 1 succeeds, page 2 errors. -/
def cexPages9 : Nat → FetchResult
  | 1 => .ok [⟨str2c "team_c", false, str2c "c"⟩]
  | _ => .err

/-! ## Helper lemmas -/

theorem removeOccF_nil_pat (fuel : Nat) (s : List Nat) : removeOccF [] fuel s = s := by
  induction fuel generalizing s with
  | zero => rfl
  | succ f ih =>
    cases s with
    | nil => rfl
    | cons c rest => simp [removeOccF, ih]

theorem removeOcc_nil_pat (s : List Nat) : removeOcc [] s = s :=
  removeOccF_nil_pat s.length s

theorem is_known_repo_iff (r : RemoteRepo) (locals : List LocalRepo) (tp : List Nat) :
    is_known_repo r locals tp = true ↔ ∃ l, l ∈ locals ∧ l.name = removeOcc tp r.name := by
  simp [is_known_repo, List.any_eq_true, beq_iff_eq]

/-- Core fact about the pagination loop: starting at page `p`, if every page
before `k` yields `some` and page `k` yields `none`, the loop returns exactly
the concatenation of the pages `p, p+1, ..., k-1` in order. -/
theorem getAllFrom_eq_join (pages : Nat → FetchResult) (tp : List Nat) (k : Nat) :
    ∀ fuel p, p ≤ k → k - p < fuel →
      (∀ j, p ≤ j → j < k → (get_repos pages tp j).isSome) →
      get_repos pages tp k = none →
      getAllFrom pages tp fuel p
        = ((List.range' p (k - p)).map (fun j => (get_repos pages tp j).getD [])).flatten := by
  intro fuel
  induction fuel with
  | zero => intro p _ hf _ _; omega
  | succ f ih =>
    intro p hpk hf hs hk
    by_cases hpe : p = k
    · subst hpe
      simp [getAllFrom, hk]
    · have hlt : p < k := lt_of_le_of_ne hpk hpe
      obtain ⟨rs, hrs⟩ := Option.isSome_iff_exists.mp (hs p le_rfl hlt)
      have hstep : getAllFrom pages tp (f + 1) p = rs ++ getAllFrom pages tp f (p + 1) := by
        simp [getAllFrom, hrs]
      have hrange : List.range' p (k - p) = p :: List.range' (p + 1) (k - (p + 1)) := by
        have he : k - p = (k - (p + 1)) + 1 := by omega
        rw [he, List.range'_succ]
      rw [hstep, ih (p + 1) hlt (by omega) (fun j hj hjk => hs j (by omega) hjk) hk, hrange]
      simp [hrs]

/-! ## Claim theorems -/

/-- C6 counterexample: with prefix `"team_"`, the remote name `"xteam_y"` has
no leading prefix to remove, so under the claim's leading-prefix comparison it
matches no local repo named `"xy"`; the code's `replace`-all comparison makes
it match, so the claim's "if and only if" is false at this input. -/
theorem known_repo_not_leading_strip :
    is_known_repo ⟨str2c "xteam_y", false, []⟩ [⟨str2c "xy", []⟩] (str2c "team_") = true
    ∧ is_known_repo_strip ⟨str2c "xteam_y", false, []⟩ [⟨str2c "xy", []⟩] (str2c "team_")
        = false := by decide

/-- C6 (amended): a remote repo is known locally iff some local repo's name
equals the remote name with **every occurrence** of the team prefix removed
(Rust `str::replace`, which equals leading-prefix stripping whenever the
prefix occurs only at the start, e.g. remote `"team_foo"` matches local
`"foo"`); and this single comparison (`is_known_repo`) is the one used by both
set operations, `find_new_repos` and `find_archived_local_repos`. -/
theorem known_iff_replace_all_match (r : RemoteRepo) (locals : List LocalRepo) (tp : List Nat) :
    (is_known_repo r locals tp = true ↔ ∃ l, l ∈ locals ∧ l.name = removeOcc tp r.name)
    ∧ (∀ remotes, r ∈ find_new_repos remotes locals tp ↔
        r ∈ remotes ∧ is_known_repo r locals tp = false)
    ∧ (∀ remotes, r ∈ find_archived_local_repos remotes locals tp ↔
        r ∈ remotes ∧ is_known_repo r locals tp = true) := by
  refine ⟨is_known_repo_iff r locals tp, ?_, ?_⟩ <;> intro remotes <;>
    simp [find_new_repos, find_archived_local_repos, List.mem_filter]

/-- Witness for C6's amended theorem at the spec's own example: remote
`"team_foo"`, local `"foo"`, prefix `"team_"`. -/
theorem known_iff_replace_all_match_witness :
    is_known_repo ⟨str2c "team_foo", false, []⟩ [⟨str2c "foo", []⟩] (str2c "team_") = true :=
  (known_iff_replace_all_match ⟨str2c "team_foo", false, []⟩ [⟨str2c "foo", []⟩]
      (str2c "team_")).1.mpr ⟨⟨str2c "foo", []⟩, by decide, by decide⟩

/-- C10: with the empty team prefix, the known-locally comparison degenerates
to plain name equality, and the clone destination directory name is the
remote name unchanged. -/
theorem empty_prefix_degenerates (r : RemoteRepo) (locals : List LocalRepo) :
    (is_known_repo r locals (str2c "") = true ↔ ∃ l, l ∈ locals ∧ l.name = r.name)
    ∧ clone_dir_name r (str2c "") = r.name := by
  have h : removeOcc (str2c "") r.name = r.name := removeOcc_nil_pat r.name
  exact ⟨by rw [is_known_repo_iff, h], h⟩

/-- Witness for C10 at a concrete repository. -/
theorem empty_prefix_degenerates_witness :
    is_known_repo ⟨str2c "delta", false, []⟩ [⟨str2c "delta", []⟩] (str2c "") = true
    ∧ clone_dir_name ⟨str2c "delta", false, []⟩ (str2c "") = str2c "delta" :=
  ⟨(empty_prefix_degenerates ⟨str2c "delta", false, []⟩ [⟨str2c "delta", []⟩]).1.mpr
      ⟨⟨str2c "delta", []⟩, by decide, by decide⟩,
    (empty_prefix_degenerates ⟨str2c "delta", false, []⟩ [⟨str2c "delta", []⟩]).2⟩

/-- C5: a remote repository that is archived and known locally is an element
of the archived-local set and never of the new set — whether `find_new_repos`
is fed the full remote list or only the active remotes. -/
theorem archived_known_in_archived_not_new (remotes : List RemoteRepo)
    (locals : List LocalRepo) (tp : List Nat) (r : RemoteRepo) (hr : r ∈ remotes)
    (ha : r.archived = true) (hk : is_known_repo r locals tp = true) :
    r ∈ find_archived_local_repos (list_archived_github_team_repos remotes) locals tp
    ∧ r ∉ find_new_repos remotes locals tp
    ∧ r ∉ find_new_repos (list_active_github_team_repos remotes) locals tp := by
  refine ⟨?_, ?_, ?_⟩
  · simp [find_archived_local_repos, list_archived_github_team_repos, List.mem_filter, hr, ha, hk]
  · simp [find_new_repos, List.mem_filter, hk]
  · simp [find_new_repos, list_active_github_team_repos, List.mem_filter, hk]

/-- Witness for C5 at the spec's Scenario D: remote `"team_delta"` archived,
local `"delta"`, prefix `"team_"`. -/
theorem archived_known_in_archived_not_new_witness :
    (⟨str2c "team_delta", true, []⟩ : RemoteRepo)
        ∈ find_archived_local_repos
            (list_archived_github_team_repos [⟨str2c "team_delta", true, []⟩])
            [⟨str2c "delta", []⟩] (str2c "team_")
    ∧ (⟨str2c "team_delta", true, []⟩ : RemoteRepo)
        ∉ find_new_repos [⟨str2c "team_delta", true, []⟩] [⟨str2c "delta", []⟩] (str2c "team_")
    ∧ (⟨str2c "team_delta", true, []⟩ : RemoteRepo)
        ∉ find_new_repos (list_active_github_team_repos [⟨str2c "team_delta", true, []⟩])
            [⟨str2c "delta", []⟩] (str2c "team_") :=
  archived_known_in_archived_not_new [⟨str2c "team_delta", true, []⟩] [⟨str2c "delta", []⟩]
    (str2c "team_") ⟨str2c "team_delta", true, []⟩ (by decide) (by decide) (by decide)

/-- C7: `find_new_repos` is exactly the unknown remotes — disjoint from the
known set, covering every remote, preserving multiplicity of unknown repos,
dropping known ones entirely, and introducing no duplicates. -/
theorem new_repos_partition (remotes : List RemoteRepo) (locals : List LocalRepo)
    (tp : List Nat) :
    (∀ r, r ∈ find_new_repos remotes locals tp → is_known_repo r locals tp = false)
    ∧ (∀ r, r ∈ remotes →
        r ∈ find_new_repos remotes locals tp ∨ is_known_repo r locals tp = true)
    ∧ (∀ r, is_known_repo r locals tp = false →
        (find_new_repos remotes locals tp).count r = remotes.count r)
    ∧ (∀ r, is_known_repo r locals tp = true → (find_new_repos remotes locals tp).count r = 0)
    ∧ (remotes.Nodup → (find_new_repos remotes locals tp).Nodup) := by
  refine ⟨?_, ?_, ?_, ?_, ?_⟩
  · intro r h
    simp [find_new_repos, List.mem_filter] at h
    exact h.2
  · intro r h
    by_cases hk : is_known_repo r locals tp = true
    · exact Or.inr hk
    · exact Or.inl (by simp [find_new_repos, List.mem_filter, h, hk])
  · intro r hk
    exact List.count_filter (by simp [hk])
  · intro r hk
    refine List.count_eq_zero.mpr ?_
    simp [find_new_repos, List.mem_filter, hk]
  · intro h
    exact h.filter _

/-- Witness for C7: with one unknown remote and no locals, the coverage
disjunct puts the remote into `find_new_repos` or the known set. -/
theorem new_repos_partition_witness :
    (⟨str2c "team_alpha", false, []⟩ : RemoteRepo)
        ∈ find_new_repos [⟨str2c "team_alpha", false, []⟩] [] (str2c "team_")
    ∨ is_known_repo ⟨str2c "team_alpha", false, []⟩ [] (str2c "team_") = true :=
  (new_repos_partition [⟨str2c "team_alpha", false, []⟩] [] (str2c "team_")).2.1
    ⟨str2c "team_alpha", false, []⟩ (by decide)

/-- C1 counterexample: a clone subprocess finishing with exit status 1 and
stderr `"fatal: repository not found"` is still classified as the `Ok` arm
with message `"cloned"` — not as a clone error carrying the stderr text, as
the claim requires. -/
theorem clone_failure_reported_as_cloned :
    classify_clone (str2c "team_alpha")
        (Except.ok ⟨1, [], str2c "fatal: repository not found"⟩)
      = GitResult.ok (str2c "team_alpha") (str2c "cloned")
    ∧ cloneKind (classify_clone (str2c "team_alpha")
        (Except.ok ⟨1, [], str2c "fatal: repository not found"⟩)) ≠ OutcomeKind.cloneError := by
  exact ⟨rfl, by decide⟩

/-- C1 (amended): `handle_clone` discards the result of `git_clone`
(`let _ = git_clone(..)` at `main.rs:240`), so every finished clone invocation
— exec-level error, non-zero exit status and non-empty stderr included — is
classified `Cloned` with the fixed message `"cloned"`, never `CloneError`. -/
theorem clone_always_cloned (n : List Nat) (res : Except (List Nat) ProcOutput) :
    classify_clone n res = GitResult.ok n (str2c "cloned")
    ∧ cloneKind (classify_clone n res) = OutcomeKind.cloned :=
  ⟨rfl, rfl⟩

theorem utf8Decode_ne_nil (s l : List Nat) (h : utf8Decode s = some l) (hs : s ≠ []) :
    l ≠ [] := by
  cases s with
  | nil => exact absurd rfl hs
  | cons b rest =>
    intro hl
    subst hl
    simp only [utf8Decode, List.length_cons, utf8DecodeF] at h
    split at h
    · exact Option.noConfusion h
    · simp only [Option.map_eq_some'] at h
      obtain ⟨a, -, ha⟩ := h
      exact List.noConfusion ha

/-- C2 counterexample: the spec's own example of a benign stderr pattern — a
successful rebase notice — is non-empty, so the code classifies it as the
`Err` arm (a `PullError`), contradicting the claim that benign stderr is not
classified as `PullError`. -/
theorem benign_stderr_classified_pull_error :
    classify_pull (str2c "beta") none []
        (str2c "Successfully rebased and updated refs/heads/main.")
      = some (GitResult.err (str2c "beta")
          (str2c "Successfully rebased and updated refs/heads/main."))
    ∧ pullKind (GitResult.err (str2c "beta")
        (str2c "Successfully rebased and updated refs/heads/main."))
      = OutcomeKind.pullError := by decide

/-- C2 (amended): with no exec-level error, **every** stderr that is non-empty
after ASCII trimming (and decodes as UTF-8) is classified as the `Err` arm
carrying the stderr text — a `PullError`; the code has no benign-pattern
exemption of any kind. -/
theorem nonempty_stderr_is_pull_error (n out err l : List Nat)
    (h : utf8Decode (trimAscii err) = some l) (hne : trimAscii err ≠ []) :
    classify_pull n none out err = some (GitResult.err n l)
    ∧ pullKind (GitResult.err n l) = OutcomeKind.pullError := by
  have hl : l ≠ [] := utf8Decode_ne_nil _ _ h hne
  exact ⟨by simp [classify_pull, h, hl], rfl⟩

/-- Witness for C2's amended theorem at a genuinely failing stderr. -/
theorem nonempty_stderr_is_pull_error_witness :
    classify_pull (str2c "beta") none []
        (str2c "error: cannot pull with rebase: You have unstaged changes.")
      = some (GitResult.err (str2c "beta")
          (str2c "error: cannot pull with rebase: You have unstaged changes."))
    ∧ pullKind (GitResult.err (str2c "beta")
        (str2c "error: cannot pull with rebase: You have unstaged changes."))
      = OutcomeKind.pullError :=
  nonempty_stderr_is_pull_error (str2c "beta") []
    (str2c "error: cannot pull with rebase: You have unstaged changes.")
    (str2c "error: cannot pull with rebase: You have unstaged changes.")
    (by decide) (by decide)

/-- C3 counterexample: the stdout `"already up to date"` matches the claim's
case-insensitive substring rule, yet the code — which compares for exact
equality with `"Already up to date."` (`main.rs:210`) — classifies it as
`Updated`, not `PullNoOp`. -/
theorem lowercase_up_to_date_not_noop :
    classify_pull (str2c "beta") none (str2c "already up to date") []
      = some (GitResult.ok (str2c "beta") (str2c "updated"))
    ∧ pullKind (GitResult.ok (str2c "beta") (str2c "updated")) = OutcomeKind.updated
    ∧ OutcomeKind.updated ≠ OutcomeKind.pullNoOp := by decide

/-- C3 (amended): with no exec-level error and stderr empty after ASCII
trimming, the outcome is the no-op `Ok` arm (empty message, bucket `PullNoOp`)
**iff** the ASCII-trimmed stdout is exactly `"Already up to date."` —
case-sensitive full equality, with no case-insensitive matching, no
`"is up to date"` variants and no new-tags handling; every other stdout
yields the `Ok` arm with message `"updated"` (bucket `Updated`). -/
theorem stdout_noop_exact_match (n out err l : List Nat) (h1 : trimAscii err = [])
    (h2 : utf8Decode (trimAscii out) = some l) :
    (classify_pull n none out err = some (GitResult.ok n [])
      ↔ l = str2c "Already up to date.")
    ∧ (classify_pull n none out err = some (GitResult.ok n (str2c "updated"))
      ↔ l ≠ str2c "Already up to date.")
    ∧ pullKind (GitResult.ok n []) = OutcomeKind.pullNoOp
    ∧ pullKind (GitResult.ok n (str2c "updated")) = OutcomeKind.updated := by
  have hud : str2c "updated" ≠ ([] : List Nat) := by decide
  have hnil : utf8Decode ([] : List Nat) = some [] := rfl
  have hk1 : pullKind (GitResult.ok n []) = OutcomeKind.pullNoOp := rfl
  have hk2 : pullKind (GitResult.ok n (str2c "updated")) = OutcomeKind.updated := rfl
  by_cases hl : l = str2c "Already up to date." <;>
    simp [classify_pull, h1, h2, hl, hud, hnil, hk1, hk2]

/-- Witness for C3's amended theorem at the spec's Scenarios B and C: the
exact phrase yields the no-op arm, a fast-forward summary yields `"updated"`. -/
theorem stdout_noop_exact_match_witness :
    classify_pull (str2c "beta") none (str2c "Already up to date.") []
      = some (GitResult.ok (str2c "beta") [])
    ∧ classify_pull (str2c "gamma") none
        (str2c "Updating 1a2b3c4..5d6e7f8 Fast-forward") []
      = some (GitResult.ok (str2c "gamma") (str2c "updated")) :=
  ⟨(stdout_noop_exact_match (str2c "beta") (str2c "Already up to date.") []
      (str2c "Already up to date.") (by decide) (by decide)).1.mpr rfl,
    (stdout_noop_exact_match (str2c "gamma")
      (str2c "Updating 1a2b3c4..5d6e7f8 Fast-forward") []
      (str2c "Updating 1a2b3c4..5d6e7f8 Fast-forward") (by decide) (by decide)).2.1.mpr
      (by decide)⟩

/-- C8 counterexample: the byte `0xFF` is not valid UTF-8, so
`str::from_utf8(..).unwrap()` panics (`main.rs:201`).  In the embedding the
classification of such a triple is `none` — the task panics instead of
returning an outcome, so classification is not total over arbitrary bytes. -/
theorem invalid_utf8_stderr_panics :
    classify_pull (str2c "delta") none [] [255] = none
    ∧ utf8Decode [255] = none := by decide

/-- C8 (amended): for every (stdout, stderr, exec-error) triple whose
ASCII-trimmed stderr and stdout are valid UTF-8, the classification is
deterministic (it is a function) and total: it returns some result.  On
invalid UTF-8 the task panics instead. -/
theorem classify_pull_total (n out err : List Nat) (e : Option (List Nat))
    (h1 : (utf8Decode (trimAscii err)).isSome) (h2 : (utf8Decode (trimAscii out)).isSome) :
    (classify_pull n e out err).isSome := by
  cases e with
  | some m => simp [classify_pull]
  | none =>
    obtain ⟨le, hle⟩ := Option.isSome_iff_exists.mp h1
    obtain ⟨lo, hlo⟩ := Option.isSome_iff_exists.mp h2
    simp only [classify_pull, hle, hlo]
    split
    · simp
    · split <;> simp

/-- Witness for C8's amended theorem at Scenario B's triple. -/
theorem classify_pull_total_witness :
    (classify_pull (str2c "beta") none (str2c "Already up to date.") []).isSome :=
  classify_pull_total (str2c "beta") (str2c "Already up to date.") [] none
    (by decide) (by decide)

/-- C4 counterexample: page 1's content is empty after the claim's
archived-and-prefix filter, so the claim demands that pagination stop there
with no repositories; but the code's loop continues (its stopping test never
consults the archived flag) and the final active list contains page 2's
repository. -/
theorem pagination_ignores_archived_filter :
    specPageFilter (str2c "team_") (pageRepos cexPages4 1) = []
    ∧ list_active_github_team_repos (get_all_repos cexPages4 (str2c "team_") 10)
        = [⟨str2c "team_b", false, str2c "b"⟩] := by decide

/-- C4 (amended): pagination requests page 1, 2, 3, ... in order and stops
exactly at the first page for which `get_repos` yields `None` — that is, the
first page that errors or whose **prefix-filtered** result is empty (the
archived filter plays no part in termination; in `main.rs`'s copy even the
prefix filter is applied only after the loop).  Every earlier page's
prefix-filtered repositories are included in the result, in page order. -/
theorem pagination_stops_at_first_none (pages : Nat → FetchResult) (tp : List Nat)
    (k fuel : Nat) (hk : 1 ≤ k) (hf : k - 1 < fuel)
    (hs : ∀ j, 1 ≤ j → j < k → (get_repos pages tp j).isSome)
    (hnone : get_repos pages tp k = none) :
    get_all_repos pages tp fuel
      = ((List.range' 1 (k - 1)).map (fun j => (get_repos pages tp j).getD [])).flatten :=
  getAllFrom_eq_join pages tp k fuel 1 hk hf hs hnone

/-- Witness for C4's amended theorem on the concrete oracle: pages 1 and 2
have non-empty prefix-filtered content, page 3 errors, so the loop returns
exactly the two filtered pages. -/
theorem pagination_stops_at_first_none_witness :
    get_all_repos cexPages4 (str2c "team_") 10
      = List.flatten
          ((List.range' 1 2).map (fun j => (get_repos cexPages4 (str2c "team_") j).getD []))
    ∧ get_all_repos cexPages4 (str2c "team_") 10
        = [⟨str2c "team_a", true, str2c "a"⟩, ⟨str2c "team_b", false, str2c "b"⟩] :=
  ⟨pagination_stops_at_first_none cexPages4 (str2c "team_") 3 10 (by decide) (by decide)
      (by
        intro j h1 h3
        have hj : j = 1 ∨ j = 2 := by omega
        rcases hj with hj | hj <;> subst hj <;> decide)
      (by decide),
    by decide⟩

/-- C9: if fetching or decoding page `k` fails (`FetchResult.err`, covering
the `send()` and `json()` error arms that both return `None` without
propagating an error), pagination terminates there and the result is exactly
the repositories gathered from the earlier pages — partial results are
retained and no error is raised (the function totally returns a list). -/
theorem page_error_is_best_effort (pages : Nat → FetchResult) (tp : List Nat)
    (k fuel : Nat) (herr : pages k = FetchResult.err) (hk : 1 ≤ k) (hf : k - 1 < fuel)
    (hs : ∀ j, 1 ≤ j → j < k → (get_repos pages tp j).isSome) :
    get_all_repos pages tp fuel
      = ((List.range' 1 (k - 1)).map (fun j => (get_repos pages tp j).getD [])).flatten := by
  apply getAllFrom_eq_join pages tp k fuel 1 hk hf hs
  simp [get_repos, herr]

/-- Witness for C9 on the concrete oracle: page 1 succeeds, page 2 errors, and
the page-1 repository is retained. -/
theorem page_error_is_best_effort_witness :
    get_all_repos cexPages9 (str2c "team_") 10
      = List.flatten
          ((List.range' 1 1).map (fun j => (get_repos cexPages9 (str2c "team_") j).getD []))
    ∧ get_all_repos cexPages9 (str2c "team_") 10 = [⟨str2c "team_c", false, str2c "c"⟩] :=
  ⟨page_error_is_best_effort cexPages9 (str2c "team_") 2 10 rfl (by decide) (by decide)
      (by
        intro j h1 h2
        have hj : j = 1 := by omega
        subst hj
        decide),
    by decide⟩

end Reposync
